import Mathlib

/-!
Verification of the HTTP(S) server wrapper in `src/utils/http.go`
(`HTTPConfig`, `HTTP.ListenAndServe`, `HTTP.EnsureCert`, and the
per-request context wrapper `newHttpHandlerWrapper`).

The Go code is shallowly embedded: the filesystem is an explicit
association list from paths to file data, external library calls
(`tls.LoadX509KeyPair`, `utils.GenerateSelfSignedCert`,
`ioutil.WriteFile`) are modelled as pure functions over that state,
and `EnsureCert` threads the state explicitly and additionally records
a trace of the effectful operations it performs, in program order.
-/

namespace TeleportPlugins

/-- Embeds Go `HTTPConfig` (src/utils/http.go lines 17-23): the five
configuration fields of the wrapper. -/
structure HTTPConfig where
  listen : String
  keyFile : String
  certFile : String
  hostname : String
  insecure : Bool
deriving DecidableEq, Repr

/-- PEM file contents, as the certificate-handling code distinguishes
them: a parseable certificate carrying its subject DNS names and an
identifier of the key pair it belongs to, a parseable private key
carrying its key-pair identifier, or unparseable bytes. -/
inductive FileContent where
  | certPem (names : List String) (keyId : Nat)
  | keyPem (keyId : Nat)
  | garbage (data : String)
deriving DecidableEq, Repr

/-- A file on disk: its content and its permission bits. -/
structure FileData where
  content : FileContent
  perm : Nat
deriving DecidableEq, Repr

/-- The filesystem: an association list from paths to file data. -/
abbrev FS := List (String × FileData)

/-- Look a path up in the filesystem. -/
def fsLookup (fs : FS) (path : String) : Option FileData :=
  match fs with
  | [] => none
  | (p, d) :: rest => if p = path then some d else fsLookup rest path

/-- Write a file: overwrite the entry at `path` if present, otherwise
append a new entry. -/
def fsWrite (fs : FS) (path : String) (d : FileData) : FS :=
  match fs with
  | [] => [(path, d)]
  | (p, e) :: rest =>
      if p = path then (path, d) :: rest else (p, e) :: fsWrite rest path d

/-- Why `tls.LoadX509KeyPair` failed, as far as the Go code under
study distinguishes (it only tests `os.IsNotExist`): the underlying
file read reported that a file does not exist, the bytes did not
parse, or the certificate and key parse but do not match. -/
inductive LoadErr where
  | notExist
  | parseError
  | mismatch
deriving DecidableEq, Repr

/-- An error produced by one of the external calls `EnsureCert`
makes. -/
inductive GoError where
  | loadFail (e : LoadErr)
  | genFail
  | writeFail (path : String)
deriving DecidableEq, Repr

/-- An error as `EnsureCert` returns it: either the raw library error
returned as-is (`return err`), or an error wrapped by `trace.Wrap`
with a context message (`""` when `trace.Wrap` was called without a
message). -/
inductive EnsureErr where
  | asIs (e : LoadErr)
  | wrapped (ctx : String) (e : GoError)
deriving DecidableEq, Repr

/-- Modelled from the spec: `tls.LoadX509KeyPair` is Go standard
library code, not under src/. It reads the certificate file first,
then the key file (a missing file surfaces as a does-not-exist error),
then parses both and checks that the private key matches the
certificate; "success means it is consistent and usable". -/
def loadX509KeyPair (fs : FS) (certFile keyFile : String) :
    Except LoadErr Unit :=
  match fsLookup fs certFile with
  | none => .error .notExist
  | some certData =>
    match fsLookup fs keyFile with
    | none => .error .notExist
    | some keyData =>
      match certData.content, keyData.content with
      | .certPem _ k, .keyPem k2 =>
          if k = k2 then .ok () else .error .mismatch
      | _, _ => .error .parseError

/-- The certificate/key pair returned by the generator, mirroring the
`Cert`/`PrivateKey` fields used at src/utils/http.go lines 138-141. -/
structure Credentials where
  privateKey : FileContent
  cert : FileContent
deriving DecidableEq, Repr

/-- The ambient effectful environment `EnsureCert` runs against: the
filesystem, whether key generation succeeds, the identifier of the
fresh key pair generation would produce, and the set of paths at which
a file write fails (disk faults). -/
structure World where
  fs : FS
  genOk : Bool
  freshKeyId : Nat
  failPaths : List String
deriving DecidableEq, Repr

/-- Modelled from the spec: `utils.GenerateSelfSignedCert` is teleport
library code, not under src/. It generates "a new self-signed
certificate/key pair whose subject identity covers both" the names it
is given; the returned certificate and private key belong to the same
fresh key pair. -/
def generateSelfSignedCert (w : World) (names : List String) :
    Except GoError Credentials :=
  if w.genOk then
    .ok ⟨.keyPem w.freshKeyId, .certPem names w.freshKeyId⟩
  else .error .genFail

/-- Modelled from the spec: `ioutil.WriteFile` is Go standard library
code, not under src/. It writes the content at the path with the given
permission bits, or fails on a disk fault. -/
def writeFile (w : World) (path : String) (content : FileContent)
    (perm : Nat) : Except GoError World :=
  if w.failPaths.contains path then .error (.writeFail path)
  else .ok { w with fs := fsWrite w.fs path ⟨content, perm⟩ }

/-- One effectful operation performed by `EnsureCert`, recorded in
program order: a load attempt of a (cert, key) pair and whether it
succeeded, a call to the self-signed generator with its subject names,
or a file write and whether it succeeded. -/
inductive Ev where
  | load (certFile keyFile : String) (ok : Bool)
  | generate (names : List String)
  | write (path : String) (ok : Bool)
deriving DecidableEq, Repr

/-- The outcome of a call of `EnsureCert`: the (possibly updated)
configuration, the (possibly updated) world, the returned error
(`none` is Go `nil`), and the trace of effectful operations. -/
structure EnsureResult where
  config : HTTPConfig
  world : World
  result : Option EnsureErr
  events : List Ev
deriving DecidableEq, Repr

/-- Embeds Go `HTTP.EnsureCert` (src/utils/http.go lines 107-145),
with the receiver's configuration and the ambient world passed and
returned explicitly. -/
def ensureCert (cfg : HTTPConfig) (w : World) (defaultPath : String) :
    EnsureResult :=
  if cfg.insecure then ⟨cfg, w, none, []⟩
  else if cfg.certFile ≠ "" then
    -- files specified by the user must exist and parse
    match loadX509KeyPair w.fs cfg.certFile cfg.keyFile with
    | .ok _ => ⟨cfg, w, none, [.load cfg.certFile cfg.keyFile true]⟩
    | .error e =>
        ⟨cfg, w, some (.asIs e), [.load cfg.certFile cfg.keyFile false]⟩
  else
    -- fall back on a self-signed certificate at the default paths
    let cfg2 : HTTPConfig :=
      { cfg with certFile := defaultPath ++ ".crt"
                 keyFile := defaultPath ++ ".key" }
    match loadX509KeyPair w.fs cfg2.certFile cfg2.keyFile with
    | .ok _ =>
        -- self-signed cert was generated previously
        ⟨cfg2, w, none, [.load cfg2.certFile cfg2.keyFile true]⟩
    | .error e =>
      let evLoad : Ev := .load cfg2.certFile cfg2.keyFile false
      if e ≠ .notExist then
        ⟨cfg2, w,
         some (.wrapped "unrecognized error reading certs" (.loadFail e)),
         [evLoad]⟩
      else
        match generateSelfSignedCert w [cfg.hostname, "localhost"] with
        | .error ge =>
            ⟨cfg2, w, some (.wrapped "" ge),
             [evLoad, .generate [cfg.hostname, "localhost"]]⟩
        | .ok creds =>
          match writeFile w cfg2.keyFile creds.privateKey 0o600 with
          | .error we =>
              ⟨cfg2, w, some (.wrapped "error writing key PEM" we),
               [evLoad, .generate [cfg.hostname, "localhost"],
                .write cfg2.keyFile false]⟩
          | .ok w1 =>
            match writeFile w1 cfg2.certFile creds.cert 0o600 with
            | .error we =>
                ⟨cfg2, w1, some (.wrapped "error writing cert PEM" we),
                 [evLoad, .generate [cfg.hostname, "localhost"],
                  .write cfg2.keyFile true, .write cfg2.certFile false]⟩
            | .ok w2 =>
                ⟨cfg2, w2, none,
                 [evLoad, .generate [cfg.hostname, "localhost"],
                  .write cfg2.keyFile true, .write cfg2.certFile true]⟩

/-- The error value with which the underlying serve loop
(`http.Server.ListenAndServe` / `ListenAndServeTLS`) returned: either
the well-known sentinel `http.ErrServerClosed`, or some other
listen/serve error (e.g., address already in use). -/
inductive ServeOutcome where
  | errServerClosed
  | serveError (msg : String)
deriving DecidableEq, Repr

/-- What actually terminated the serve loop. -/
inductive TermCause where
  | scopeCancelled
  | shutdownCalled
  | serveFailure (msg : String)
deriving DecidableEq, Repr

/-- Modelled from the spec: `net/http` is Go standard library code,
not under src/. Closing the listener (which the scope watcher at
src/utils/http.go lines 74-77 does on scope cancellation) or calling
`Shutdown` makes the serve loop return the sentinel
`http.ErrServerClosed`; any other listen/serve failure surfaces as its
own error. -/
def serveOutcome : TermCause → ServeOutcome
  | .scopeCancelled => .errServerClosed
  | .shutdownCalled => .errServerClosed
  | .serveFailure m => .serveError m

/-- The error `ListenAndServe` returns when it does not return `nil`:
the serve error wrapped by `trace.Wrap`. -/
inductive ListenErr where
  | wrapped (msg : String)
deriving DecidableEq, Repr

/-- Embeds the error handling of Go `HTTP.ListenAndServe`
(src/utils/http.go lines 79-90): both the insecure and the TLS branch
store the serve loop's error in `err`; the sentinel is turned into
`nil` and every other error is wrapped. -/
def listenAndServe (h : HTTPConfig) (outcome : ServeOutcome) :
    Option ListenErr :=
  let err := outcome
  -- the config only selects which underlying serve call produced err
  match h.insecure, err with
  | _, .errServerClosed => none
  | _, .serveError m => some (.wrapped m)

/-!
Per-request context wiring (`newHttpHandlerWrapper`,
src/utils/http.go lines 48-63), as a step relation on an explicit
state. Each in-flight request has: its own native context
(`r.Context()`), the derived cancellable context created by
`context.WithCancel(baseCtx)`, the handler call, and the watcher
goroutine running the `select`. The derived context of a request is
done when the base scope is done or its own `cancel` was called —
that is the semantics of `context.WithCancel`.
-/

/-- The state of one in-flight request under the handler wrapper:
whether its native context is done (client disconnect), whether the
derived context's `cancel` function has been called, whether
`handler.ServeHTTP` has returned, and whether the watcher goroutine
has exited its `select`. -/
structure ReqState where
  nativeDone : Bool
  cancelled : Bool
  handlerDone : Bool
  watcherExited : Bool
deriving DecidableEq, Repr

/-- The state of the wrapper system: the shared base scope and all
in-flight requests. -/
structure SysState where
  scopeDone : Bool
  reqs : List ReqState
deriving DecidableEq, Repr

/-- The derived context of request `r` is done: its parent scope is
done, or its own `cancel` was called (`context.WithCancel`
semantics). -/
def derivedDone (s : SysState) (r : ReqState) : Bool :=
  s.scopeDone || r.cancelled

/-- Update the `i`-th element of a list in place; out-of-range indices
leave the list unchanged. -/
def updateNth {α : Type} (l : List α) (i : Nat) (f : α → α) : List α :=
  match l, i with
  | [], _ => []
  | r :: rest, 0 => f r :: rest
  | r :: rest, n + 1 => r :: updateNth rest n f

/-- The atomic events of the wrapper system: the external scope is
cancelled; a client disconnects, making request `i`'s native context
done; request `i`'s watcher goroutine fires the first `select` case
(`<-r.Context().Done()` — enabled only when the native context is
done) and calls `cancel`; the watcher fires the second case
(`<-ctx.Done()` — enabled only when the derived context is done) and
exits without cancelling; the handler of request `i` returns, running
the deferred `cancel()`. -/
inductive Step where
  | cancelScope
  | clientDisconnect (i : Nat)
  | watcherNative (i : Nat)
  | watcherDerived (i : Nat)
  | handlerReturn (i : Nat)
deriving DecidableEq, Repr

/-- One step of the wrapper system, embedding the body of
`newHttpHandlerWrapper` (src/utils/http.go lines 50-61): a watcher
step is a no-op unless its `select` case is ready and the goroutine is
still alive. -/
def step (s : SysState) : Step → SysState
  | .cancelScope => { s with scopeDone := true }
  | .clientDisconnect i =>
      { s with reqs := updateNth s.reqs i fun r => { r with nativeDone := true } }
  | .watcherNative i =>
      { s with reqs := updateNth s.reqs i fun r =>
          if r.nativeDone && !r.watcherExited then
            { r with cancelled := true, watcherExited := true }
          else r }
  | .watcherDerived i =>
      { s with reqs := updateNth s.reqs i fun r =>
          if (s.scopeDone || r.cancelled) && !r.watcherExited then
            { r with watcherExited := true }
          else r }
  | .handlerReturn i =>
      { s with reqs := updateNth s.reqs i fun r =>
          { r with handlerDone := true, cancelled := true } }

/-- Run a list of steps from a state. -/
def run (s : SysState) (tr : List Step) : SysState :=
  List.foldl step s tr

/-- The fresh state of one request, as the wrapper sets it up on
request arrival: nothing has fired yet. -/
def freshReq : ReqState := ⟨false, false, false, false⟩

/-- The initial system state: scope alive, `n` fresh requests. -/
def initState (n : Nat) : SysState :=
  ⟨false, List.replicate n freshReq⟩

/-- A state the wrapper system can actually be in: reachable from an
initial state by some interleaving of steps. -/
def Reachable (s : SysState) : Prop :=
  ∃ n tr, s = run (initState n) tr

/-- The request at index `i` (a fresh dummy out of range). -/
def reqAt (s : SysState) (i : Nat) : ReqState :=
  s.reqs.getD i freshReq

/-! Concrete fixtures used by witnesses and counterexamples. -/

/-- A configuration in TLS mode with no explicit certificate. -/
def cfgDefault : HTTPConfig := ⟨"addr", "", "", "host", false⟩

/-- A configuration in TLS mode with an explicit certificate pair. -/
def cfgExplicit : HTTPConfig := ⟨"addr", "k.pem", "c.pem", "host", false⟩

/-- A configuration with TLS bypassed. -/
def cfgInsecure : HTTPConfig := ⟨"addr", "kf", "cf", "host", true⟩

/-- An empty, fault-free world. -/
def worldEmpty : World := ⟨[], true, 7, []⟩

/-- A world with a corrupt (unparseable) certificate file and a key
file already present at the default candidate paths for "d". -/
def worldCorrupt : World :=
  ⟨[("d.crt", ⟨.garbage "x", 0o600⟩), ("d.key", ⟨.keyPem 3, 0o600⟩)],
   true, 7, []⟩

/-- An empty world in which writing "d.crt" fails (disk fault). -/
def worldCertFail : World := ⟨[], true, 7, ["d.crt"]⟩

/-- A world holding a valid matching pair at the explicit paths of
`cfgExplicit`. -/
def worldExplicitOk : World :=
  ⟨[("c.pem", ⟨.certPem ["host"] 5, 0o600⟩), ("k.pem", ⟨.keyPem 5, 0o600⟩)],
   true, 7, []⟩

/-- A world holding a mismatched pair at the explicit paths of
`cfgExplicit`. -/
def worldExplicitBad : World :=
  ⟨[("c.pem", ⟨.certPem ["host"] 5, 0o600⟩), ("k.pem", ⟨.keyPem 6, 0o600⟩)],
   true, 7, []⟩

/-- The spec claim that every resolution path of `EnsureCert`,
including fresh generation, ends in a load-and-parse verification
round-trip of the persisted material: whenever it succeeds in TLS
mode, the last effectful operation it performed was a successful
load. -/
def ensureCertEndsWithVerifyLoad : Prop :=
  ∀ cfg w p, cfg.insecure = false → (ensureCert cfg w p).result = none →
    ∃ a b, (ensureCert cfg w p).events.getLast? = some (.load a b true)

/-- The spec claim that the configuration is immutable: no call of
`EnsureCert` changes any configuration field. -/
def ensureCertPreservesConfig : Prop :=
  ∀ cfg w p, (ensureCert cfg w p).config = cfg

/-! Helper lemmas. -/

theorem fsLookup_fsWrite_self (fs : FS) (path : String) (d : FileData) :
    fsLookup (fsWrite fs path d) path = some d := by
  induction fs with
  | nil => simp [fsWrite, fsLookup]
  | cons hd tl ih =>
      obtain ⟨p, e⟩ := hd
      by_cases h : p = path <;> simp [fsWrite, fsLookup, h, ih]

theorem fsLookup_fsWrite_ne (fs : FS) (path : String) (d : FileData)
    (q : String) (h : q ≠ path) :
    fsLookup (fsWrite fs path d) q = fsLookup fs q := by
  induction fs with
  | nil => simp [fsWrite, fsLookup, Ne.symm h]
  | cons hd tl ih =>
      obtain ⟨p, e⟩ := hd
      by_cases hp : p = path
      · subst hp
        simp [fsWrite, fsLookup, Ne.symm h]
      · simp [fsWrite, fsLookup, hp, ih]

theorem key_ne_crt (p : String) : p ++ ".key" ≠ p ++ ".crt" := by
  intro h
  have h2 := congrArg String.data h
  simp [String.data_append] at h2

theorem crt_ne_key (p : String) : p ++ ".crt" ≠ p ++ ".key" :=
  fun h => key_ne_crt p h.symm

theorem updateNth_getD_lt {α : Type} (l : List α) (i : Nat) (f : α → α)
    (d : α) (h : i < l.length) :
    (updateNth l i f).getD i d = f (l.getD i d) := by
  induction l generalizing i with
  | nil => simp at h
  | cons hd tl ih =>
      cases i with
      | zero => simp [updateNth]
      | succ n =>
          simp only [updateNth, List.getD_cons_succ]
          exact ih n (by simpa using h)

theorem updateNth_getD_ne {α : Type} (l : List α) (i j : Nat) (f : α → α)
    (d : α) (h : j ≠ i) :
    (updateNth l i f).getD j d = l.getD j d := by
  induction l generalizing i j with
  | nil => simp [updateNth]
  | cons hd tl ih =>
      cases i with
      | zero =>
          cases j with
          | zero => exact absurd rfl h
          | succ m => simp [updateNth]
      | succ n =>
          cases j with
          | zero => simp [updateNth]
          | succ m =>
              simp only [updateNth, List.getD_cons_succ]
              exact ih n m (fun hnm => h (by simp [hnm]))

theorem updateNth_length {α : Type} (l : List α) (i : Nat) (f : α → α) :
    (updateNth l i f).length = l.length := by
  induction l generalizing i with
  | nil => simp [updateNth]
  | cons hd tl ih =>
      cases i with
      | zero => simp [updateNth]
      | succ n => simp [updateNth, ih]

theorem mem_updateNth {α : Type} {l : List α} {i : Nat} {f : α → α} {r : α}
    (h : r ∈ updateNth l i f) : r ∈ l ∨ ∃ r0, r0 ∈ l ∧ r = f r0 := by
  induction l generalizing i with
  | nil => simp [updateNth] at h
  | cons hd tl ih =>
      cases i with
      | zero =>
          rcases List.mem_cons.mp h with h1 | h1
          · exact Or.inr ⟨hd, List.mem_cons_self hd tl, h1⟩
          · exact Or.inl (List.mem_cons_of_mem hd h1)
      | succ n =>
          rcases List.mem_cons.mp h with h1 | h1
          · exact Or.inl (h1 ▸ List.mem_cons_self hd tl)
          · rcases ih h1 with h2 | ⟨r0, hr0, hr⟩
            · exact Or.inl (List.mem_cons_of_mem hd h2)
            · exact Or.inr ⟨r0, List.mem_cons_of_mem hd hr0, hr⟩

/-- Invariant of the wrapper system: a watcher goroutine only exits
after its request's derived context is done (either `select` case
requires that, since the first one also calls `cancel`). -/
def WatcherInv (s : SysState) : Prop :=
  ∀ r ∈ s.reqs, r.watcherExited = true → derivedDone s r = true

theorem watcherInv_init (n : Nat) : WatcherInv (initState n) := by
  intro r hr hw
  have : r = freshReq := List.eq_of_mem_replicate hr
  subst this
  simp [freshReq] at hw

theorem watcherInv_step (s : SysState) (st : Step) (h : WatcherInv s) :
    WatcherInv (step s st) := by
  cases st with
  | cancelScope =>
      intro r hr hw
      simp [derivedDone, step]
  | clientDisconnect i =>
      intro r hr hw
      rcases mem_updateNth hr with h1 | ⟨r0, hr0, h1⟩
      · have := h r h1
        simp only [step] at hw ⊢
        simp [derivedDone] at this ⊢
        exact this hw
      · subst h1
        simp only at hw
        have := h r0 hr0 hw
        simp [derivedDone, step] at this ⊢
        exact this
  | watcherNative i =>
      intro r hr hw
      rcases mem_updateNth hr with h1 | ⟨r0, hr0, h1⟩
      · have := h r h1
        simp [derivedDone, step] at this ⊢
        exact this hw
      · subst h1
        by_cases hc : (r0.nativeDone && !r0.watcherExited) = true
        · simp only [if_pos hc] at hw ⊢
          simp [derivedDone, step]
        · simp only [if_neg hc] at hw ⊢
          have := h r0 hr0 hw
          simp [derivedDone, step] at this ⊢
          exact this
  | watcherDerived i =>
      intro r hr hw
      rcases mem_updateNth hr with h1 | ⟨r0, hr0, h1⟩
      · have := h r h1
        simp [derivedDone, step] at this ⊢
        exact this hw
      · subst h1
        by_cases hc : (s.scopeDone || r0.cancelled) && !r0.watcherExited
        · simp only [if_pos hc] at hw ⊢
          have hd : s.scopeDone || r0.cancelled := by
            have := hc
            simp at this
            simpa using this.1
          simp [derivedDone, step]
          simpa using hd
        · simp only [if_neg hc] at hw ⊢
          have := h r0 hr0 hw
          simp [derivedDone, step] at this ⊢
          exact this
  | handlerReturn i =>
      intro r hr hw
      rcases mem_updateNth hr with h1 | ⟨r0, hr0, h1⟩
      · have := h r h1
        simp [derivedDone, step] at this ⊢
        exact this hw
      · subst h1
        simp [derivedDone, step]

theorem watcherInv_run (s : SysState) (tr : List Step) (h : WatcherInv s) :
    WatcherInv (run s tr) := by
  induction tr generalizing s with
  | nil => simpa [run] using h
  | cons st rest ih =>
      have h1 := watcherInv_step s st h
      simpa [run, List.foldl_cons] using ih (step s st) h1

theorem watcherInv_reachable (s : SysState) (h : Reachable s) :
    WatcherInv s := by
  obtain ⟨n, tr, rfl⟩ := h
  exact watcherInv_run _ tr (watcherInv_init n)

/-! Branch characterizations of `ensureCert`, one per control path of
the Go function. -/

theorem ensureCert_eq_insecure (cfg : HTTPConfig) (w : World) (p : String)
    (hins : cfg.insecure = true) :
    ensureCert cfg w p = ⟨cfg, w, none, []⟩ := by
  simp [ensureCert, hins]

theorem ensureCert_eq_explicit_ok (cfg : HTTPConfig) (w : World) (p : String)
    (hins : cfg.insecure = false) (hcf : cfg.certFile ≠ "")
    (hL : loadX509KeyPair w.fs cfg.certFile cfg.keyFile = .ok ()) :
    ensureCert cfg w p =
      ⟨cfg, w, none, [.load cfg.certFile cfg.keyFile true]⟩ := by
  simp [ensureCert, hins, hcf, hL]

theorem ensureCert_eq_explicit_err (cfg : HTTPConfig) (w : World) (p : String)
    (e : LoadErr) (hins : cfg.insecure = false) (hcf : cfg.certFile ≠ "")
    (hL : loadX509KeyPair w.fs cfg.certFile cfg.keyFile = .error e) :
    ensureCert cfg w p =
      ⟨cfg, w, some (.asIs e), [.load cfg.certFile cfg.keyFile false]⟩ := by
  simp [ensureCert, hins, hcf, hL]

theorem ensureCert_eq_reuse (cfg : HTTPConfig) (w : World) (p : String)
    (hins : cfg.insecure = false) (hcf : cfg.certFile = "")
    (hL : loadX509KeyPair w.fs (p ++ ".crt") (p ++ ".key") = .ok ()) :
    ensureCert cfg w p =
      ⟨{ cfg with certFile := p ++ ".crt", keyFile := p ++ ".key" },
       w, none, [.load (p ++ ".crt") (p ++ ".key") true]⟩ := by
  simp [ensureCert, hins, hcf, hL]

theorem ensureCert_eq_unrecognized (cfg : HTTPConfig) (w : World)
    (p : String) (e : LoadErr)
    (hins : cfg.insecure = false) (hcf : cfg.certFile = "")
    (hL : loadX509KeyPair w.fs (p ++ ".crt") (p ++ ".key") = .error e)
    (hne : e ≠ .notExist) :
    ensureCert cfg w p =
      ⟨{ cfg with certFile := p ++ ".crt", keyFile := p ++ ".key" },
       w, some (.wrapped "unrecognized error reading certs" (.loadFail e)),
       [.load (p ++ ".crt") (p ++ ".key") false]⟩ := by
  simp [ensureCert, hins, hcf, hL, hne]

theorem ensureCert_eq_genFail (cfg : HTTPConfig) (w : World) (p : String)
    (hins : cfg.insecure = false) (hcf : cfg.certFile = "")
    (hL : loadX509KeyPair w.fs (p ++ ".crt") (p ++ ".key") = .error .notExist)
    (hgen : w.genOk = false) :
    ensureCert cfg w p =
      ⟨{ cfg with certFile := p ++ ".crt", keyFile := p ++ ".key" },
       w, some (.wrapped "" .genFail),
       [.load (p ++ ".crt") (p ++ ".key") false,
        .generate [cfg.hostname, "localhost"]]⟩ := by
  simp [ensureCert, hins, hcf, hL, generateSelfSignedCert, hgen]

theorem ensureCert_eq_keyWriteFail (cfg : HTTPConfig) (w : World)
    (p : String)
    (hins : cfg.insecure = false) (hcf : cfg.certFile = "")
    (hL : loadX509KeyPair w.fs (p ++ ".crt") (p ++ ".key") = .error .notExist)
    (hgen : w.genOk = true)
    (hwk : w.failPaths.contains (p ++ ".key") = true) :
    ensureCert cfg w p =
      ⟨{ cfg with certFile := p ++ ".crt", keyFile := p ++ ".key" },
       w, some (.wrapped "error writing key PEM" (.writeFail (p ++ ".key"))),
       [.load (p ++ ".crt") (p ++ ".key") false,
        .generate [cfg.hostname, "localhost"],
        .write (p ++ ".key") false]⟩ := by
  have hwk2 : (p ++ ".key") ∈ w.failPaths := by simpa using hwk
  simp [ensureCert, hins, hcf, hL, generateSelfSignedCert, hgen,
        writeFile, hwk2]

theorem ensureCert_eq_certWriteFail (cfg : HTTPConfig) (w : World)
    (p : String)
    (hins : cfg.insecure = false) (hcf : cfg.certFile = "")
    (hL : loadX509KeyPair w.fs (p ++ ".crt") (p ++ ".key") = .error .notExist)
    (hgen : w.genOk = true)
    (hwk : w.failPaths.contains (p ++ ".key") = false)
    (hwc : w.failPaths.contains (p ++ ".crt") = true) :
    ensureCert cfg w p =
      ⟨{ cfg with certFile := p ++ ".crt", keyFile := p ++ ".key" },
       { w with fs := fsWrite w.fs (p ++ ".key") ⟨.keyPem w.freshKeyId, 0o600⟩ },
       some (.wrapped "error writing cert PEM" (.writeFail (p ++ ".crt"))),
       [.load (p ++ ".crt") (p ++ ".key") false,
        .generate [cfg.hostname, "localhost"],
        .write (p ++ ".key") true, .write (p ++ ".crt") false]⟩ := by
  have hwk2 : (p ++ ".key") ∉ w.failPaths := by simpa using hwk
  have hwc2 : (p ++ ".crt") ∈ w.failPaths := by simpa using hwc
  simp [ensureCert, hins, hcf, hL, generateSelfSignedCert, hgen,
        writeFile, hwk2, hwc2]

theorem ensureCert_eq_generate (cfg : HTTPConfig) (w : World) (p : String)
    (hins : cfg.insecure = false) (hcf : cfg.certFile = "")
    (hL : loadX509KeyPair w.fs (p ++ ".crt") (p ++ ".key") = .error .notExist)
    (hgen : w.genOk = true)
    (hwk : w.failPaths.contains (p ++ ".key") = false)
    (hwc : w.failPaths.contains (p ++ ".crt") = false) :
    ensureCert cfg w p =
      ⟨{ cfg with certFile := p ++ ".crt", keyFile := p ++ ".key" },
       { w with fs := fsWrite (fsWrite w.fs (p ++ ".key") ⟨.keyPem w.freshKeyId, 0o600⟩) (p ++ ".crt") ⟨.certPem [cfg.hostname, "localhost"] w.freshKeyId, 0o600⟩ },
       none,
       [.load (p ++ ".crt") (p ++ ".key") false,
        .generate [cfg.hostname, "localhost"],
        .write (p ++ ".key") true, .write (p ++ ".crt") true]⟩ := by
  have hwk2 : (p ++ ".key") ∉ w.failPaths := by simpa using hwk
  have hwc2 : (p ++ ".crt") ∉ w.failPaths := by simpa using hwc
  simp [ensureCert, hins, hcf, hL, generateSelfSignedCert, hgen,
        writeFile, hwk2, hwc2]

theorem getD_mem {α : Type} (l : List α) (i : Nat) (d : α)
    (h : i < l.length) : l.getD i d ∈ l := by
  induction l generalizing i with
  | nil => simp at h
  | cons hd tl ih =>
      cases i with
      | zero => simp
      | succ n =>
          simp only [List.getD_cons_succ]
          exact List.mem_cons_of_mem hd (ih n (by simpa using h))

/-- Scope cancellation makes every request's derived context done
(semantics of `context.WithCancel` parentage). -/
theorem scopeCancel_cancels_all (s : SysState) (k : Nat) :
    derivedDone (step s .cancelScope) (reqAt (step s .cancelScope) k) = true := by
  simp [derivedDone, step]

/-- After a client disconnect of request `i`, one firing of `i`'s
watcher leaves `i`'s derived context done: either the watcher is
still alive and its first `select` case calls `cancel`, or it already
exited, which (invariant) means the derived context was already
done. -/
theorem clientDisconnect_then_watcher_cancels (s : SysState)
    (h : WatcherInv s) (i : Nat) (hi : i < s.reqs.length) :
    derivedDone (run s [.clientDisconnect i, .watcherNative i])
      (reqAt (run s [.clientDisconnect i, .watcherNative i]) i) = true := by
  have hr : s.reqs.getD i freshReq ∈ s.reqs := getD_mem _ _ _ hi
  have hi1 : i < (updateNth s.reqs i
      (fun r => { r with nativeDone := true })).length := by
    rw [updateNth_length]; exact hi
  show (s.scopeDone ||
    ((updateNth (updateNth s.reqs i (fun r => { r with nativeDone := true })) i
      (fun r => if r.nativeDone && !r.watcherExited then
        { r with cancelled := true, watcherExited := true } else r)).getD i
      freshReq).cancelled) = true
  rw [updateNth_getD_lt _ _ _ _ hi1, updateNth_getD_lt _ _ _ _ hi]
  cases hw : (s.reqs.getD i freshReq).watcherExited with
  | true =>
      have hd := h _ hr hw
      simp only [derivedDone] at hd
      simpa [hw] using hd
  | false => simp [hw]

/-- A step of request `i` (disconnect, either watcher firing, or
handler return) leaves the scope and every sibling request `j ≠ i`
untouched. -/
theorem requestStep_frame (s : SysState) (i j : Nat) (hij : j ≠ i)
    (st : Step)
    (hst : st = .clientDisconnect i ∨ st = .watcherNative i ∨
      st = .watcherDerived i ∨ st = .handlerReturn i) :
    (step s st).scopeDone = s.scopeDone ∧ reqAt (step s st) j = reqAt s j := by
  rcases hst with rfl | rfl | rfl | rfl <;>
    exact ⟨rfl, updateNth_getD_ne _ _ _ _ _ hij⟩

/-- After the handler of request `i` returns (running the deferred
`cancel()`), one firing of `i`'s watcher leaves the watcher exited:
its second `select` case is ready because the derived context is
done. -/
theorem handlerReturn_then_watcher_exits (s : SysState) (i : Nat)
    (hi : i < s.reqs.length) :
    (reqAt (step (step s (.handlerReturn i)) (.watcherDerived i)) i).watcherExited
      = true := by
  have hi1 : i < (updateNth s.reqs i
      (fun r => { r with handlerDone := true, cancelled := true })).length := by
    rw [updateNth_length]; exact hi
  show ((updateNth (updateNth s.reqs i
      (fun r => { r with handlerDone := true, cancelled := true })) i
      (fun r => if (s.scopeDone || r.cancelled) && !r.watcherExited then
        { r with watcherExited := true } else r)).getD i
      freshReq).watcherExited = true
  rw [updateNth_getD_lt _ _ _ _ hi1, updateNth_getD_lt _ _ _ _ hi]
  cases hw : (s.reqs.getD i freshReq).watcherExited <;> simp [hw]

/-- Characterization of the configuration `EnsureCert` leaves behind:
unchanged, except that the fallback branch records the candidate
paths in `certFile`/`keyFile`. -/
theorem ensureCert_config_eq (cfg : HTTPConfig) (w : World) (p : String) :
    (ensureCert cfg w p).config =
      if cfg.insecure = false ∧ cfg.certFile = "" then
        { cfg with certFile := p ++ ".crt", keyFile := p ++ ".key" }
      else cfg := by
  by_cases hins : cfg.insecure = true
  · rw [ensureCert_eq_insecure cfg w p hins]
    simp [hins]
  · have hins2 : cfg.insecure = false := by simpa using hins
    by_cases hcf : cfg.certFile = ""
    · rw [if_pos ⟨hins2, hcf⟩]
      cases hL : loadX509KeyPair w.fs (p ++ ".crt") (p ++ ".key") with
      | ok u =>
          cases u
          rw [ensureCert_eq_reuse cfg w p hins2 hcf hL]
      | error e =>
          by_cases hne : e = .notExist
          · subst hne
            cases hgen : w.genOk with
            | false => rw [ensureCert_eq_genFail cfg w p hins2 hcf hL hgen]
            | true =>
                cases hwk : w.failPaths.contains (p ++ ".key") with
                | true =>
                    rw [ensureCert_eq_keyWriteFail cfg w p hins2 hcf hL hgen hwk]
                | false =>
                    cases hwc : w.failPaths.contains (p ++ ".crt") with
                    | true =>
                        rw [ensureCert_eq_certWriteFail cfg w p hins2 hcf hL
                          hgen hwk hwc]
                    | false =>
                        rw [ensureCert_eq_generate cfg w p hins2 hcf hL
                          hgen hwk hwc]
          · rw [ensureCert_eq_unrecognized cfg w p e hins2 hcf hL hne]
    · rw [if_neg (fun hc => hcf hc.2)]
      cases hL : loadX509KeyPair w.fs cfg.certFile cfg.keyFile with
      | ok u =>
          cases u
          rw [ensureCert_eq_explicit_ok cfg w p hins2 hcf hL]
      | error e =>
          rw [ensureCert_eq_explicit_err cfg w p e hins2 hcf hL]

/-- When both candidate files are absent, the load attempt reports
does-not-exist. -/
theorem loadX509_absent (fs : FS) (c k : String)
    (hc : fsLookup fs c = none) :
    loadX509KeyPair fs c k = .error .notExist := by
  simp [loadX509KeyPair, hc]

/-- Loading the freshly generated pair back from the written state
succeeds. -/
theorem loadX509_generated (fs : FS) (p : String) (names : List String)
    (kid : Nat) :
    loadX509KeyPair
      (fsWrite (fsWrite fs (p ++ ".key") ⟨.keyPem kid, 0o600⟩)
        (p ++ ".crt") ⟨.certPem names kid, 0o600⟩)
      (p ++ ".crt") (p ++ ".key") = .ok () := by
  simp [loadX509KeyPair, fsLookup_fsWrite_self,
        fsLookup_fsWrite_ne _ _ _ _ (key_ne_crt p)]

/-! Claim theorems. -/

/-- C1: `ListenAndServe(ctx)` returns a nil error exactly when the
underlying serve loop terminated with the well-known server-closed
sentinel (termination caused by scope cancellation closing the
listener or an explicit shutdown call), and for every other
listen/serve failure it returns a non-nil error wrapped with
context. -/
theorem listenAndServe_nil_iff_sentinel (h : HTTPConfig)
    (cause : TermCause) :
    (listenAndServe h (serveOutcome cause) = none ↔
      cause = .scopeCancelled ∨ cause = .shutdownCalled) ∧
    (∀ m, listenAndServe h (serveOutcome (.serveFailure m)) =
      some (.wrapped m)) := by
  constructor
  · cases cause <;> simp [listenAndServe, serveOutcome]
  · intro m
    rfl

/-- C5: with `insecure = true`, `EnsureCert` returns nil immediately,
performing no filesystem read or write and leaving the configuration
unchanged, regardless of `certFile`, `keyFile`, `hostname`, or the
`defaultPath` argument. -/
theorem ensureCert_insecure_noop (cfg : HTTPConfig) (w : World)
    (p : String) (hins : cfg.insecure = true) :
    ensureCert cfg w p = ⟨cfg, w, none, []⟩ :=
  ensureCert_eq_insecure cfg w p hins

/-- Witness for C5 at a concrete insecure configuration. -/
theorem ensureCert_insecure_noop_witness :
    cfgInsecure.insecure = true ∧
    ensureCert cfgInsecure worldCorrupt "d" =
      ⟨cfgInsecure, worldCorrupt, none, []⟩ :=
  ⟨rfl, ensureCert_insecure_noop cfgInsecure worldCorrupt "d" rfl⟩

/-- C4: with `insecure` false and a non-empty `certFile`, the
configured pair is loaded and parsed; on success `EnsureCert` returns
nil, on any load/parse failure it returns that error as-is
(unwrapped); in both cases it performs no filesystem write and no
fallback generation, and leaves the configuration unchanged. -/
theorem ensureCert_explicit_asIs (cfg : HTTPConfig) (w : World)
    (p : String) (hins : cfg.insecure = false)
    (hcf : cfg.certFile ≠ "") :
    (ensureCert cfg w p).world = w ∧
    (ensureCert cfg w p).config = cfg ∧
    (loadX509KeyPair w.fs cfg.certFile cfg.keyFile = .ok () →
      (ensureCert cfg w p).result = none) ∧
    (∀ e, loadX509KeyPair w.fs cfg.certFile cfg.keyFile = .error e →
      (ensureCert cfg w p).result = some (.asIs e)) ∧
    (∀ ns, Ev.generate ns ∉ (ensureCert cfg w p).events) ∧
    (∀ q b, Ev.write q b ∉ (ensureCert cfg w p).events) := by
  cases hL : loadX509KeyPair w.fs cfg.certFile cfg.keyFile with
  | ok u =>
      cases u
      rw [ensureCert_eq_explicit_ok cfg w p hins hcf hL]
      refine ⟨rfl, rfl, fun _ => rfl, ?_, ?_, ?_⟩
      · intro e he
        cases he
      · intro ns
        simp
      · intro q b
        simp
  | error e =>
      rw [ensureCert_eq_explicit_err cfg w p e hins hcf hL]
      refine ⟨rfl, rfl, ?_, ?_, ?_, ?_⟩
      · intro hok
        cases hok
      · intro e2 he2
        cases he2
        rfl
      · intro ns
        simp
      · intro q b
        simp

/-- Witness for C4 at a concrete explicit configuration with a
mismatched pair on disk. -/
theorem ensureCert_explicit_asIs_witness :
    cfgExplicit.insecure = false ∧ cfgExplicit.certFile ≠ "" ∧
    ((ensureCert cfgExplicit worldExplicitBad "d").world = worldExplicitBad ∧
     (ensureCert cfgExplicit worldExplicitBad "d").config = cfgExplicit ∧
     (loadX509KeyPair worldExplicitBad.fs cfgExplicit.certFile
        cfgExplicit.keyFile = .ok () →
       (ensureCert cfgExplicit worldExplicitBad "d").result = none) ∧
     (∀ e, loadX509KeyPair worldExplicitBad.fs cfgExplicit.certFile
        cfgExplicit.keyFile = .error e →
       (ensureCert cfgExplicit worldExplicitBad "d").result =
         some (.asIs e)) ∧
     (∀ ns, Ev.generate ns ∉ (ensureCert cfgExplicit worldExplicitBad "d").events) ∧
     (∀ q b, Ev.write q b ∉ (ensureCert cfgExplicit worldExplicitBad "d").events)) :=
  ⟨rfl, by decide,
   ensureCert_explicit_asIs cfgExplicit worldExplicitBad "d" rfl (by decide)⟩

/-- C2: with `insecure` false, empty `certFile`, and the candidate
pair at `defaultPath+".crt"`/`defaultPath+".key"` failing to load for
any reason other than the files not existing, `EnsureCert` returns a
non-nil wrapped error, performs no filesystem write, does not modify
or delete the existing files, and does not enter the generation
branch. -/
theorem ensureCert_corrupt_present_fails (cfg : HTTPConfig) (w : World)
    (p : String) (e : LoadErr)
    (hins : cfg.insecure = false) (hcf : cfg.certFile = "")
    (hL : loadX509KeyPair w.fs (p ++ ".crt") (p ++ ".key") = .error e)
    (hne : e ≠ .notExist) :
    (ensureCert cfg w p).world = w ∧
    (ensureCert cfg w p).result =
      some (.wrapped "unrecognized error reading certs" (.loadFail e)) ∧
    (∀ ns, Ev.generate ns ∉ (ensureCert cfg w p).events) ∧
    (∀ q b, Ev.write q b ∉ (ensureCert cfg w p).events) := by
  rw [ensureCert_eq_unrecognized cfg w p e hins hcf hL hne]
  refine ⟨rfl, rfl, ?_, ?_⟩
  · intro ns
    simp
  · intro q b
    simp

/-- Witness for C2 at a concrete world holding a corrupt certificate
file at the default path. -/
theorem ensureCert_corrupt_present_fails_witness :
    cfgDefault.insecure = false ∧ cfgDefault.certFile = "" ∧
    loadX509KeyPair worldCorrupt.fs ("d" ++ ".crt") ("d" ++ ".key") =
      Except.error LoadErr.parseError ∧
    ((ensureCert cfgDefault worldCorrupt "d").world = worldCorrupt ∧
     (ensureCert cfgDefault worldCorrupt "d").result =
       some (.wrapped "unrecognized error reading certs"
         (.loadFail .parseError)) ∧
     (∀ ns, Ev.generate ns ∉ (ensureCert cfgDefault worldCorrupt "d").events) ∧
     (∀ q b, Ev.write q b ∉ (ensureCert cfgDefault worldCorrupt "d").events)) :=
  ⟨rfl, rfl, rfl,
   ensureCert_corrupt_present_fails cfgDefault worldCorrupt "d" .parseError
     rfl rfl rfl (by decide)⟩

/-- C3: with `insecure` false, empty `certFile`, and no files present
at the derived candidate paths, `EnsureCert` generates a self-signed
certificate whose subject identity covers both the configured
hostname and "localhost", writes exactly two files — the key at
`defaultPath+".key"` and the certificate at `defaultPath+".crt"`,
each with owner-only (0600) permissions, leaving every other path
untouched — and returns success. -/
theorem ensureCert_generates_self_signed (cfg : HTTPConfig) (w : World)
    (p : String)
    (hins : cfg.insecure = false) (hcf : cfg.certFile = "")
    (hcrt : fsLookup w.fs (p ++ ".crt") = none)
    (hkey : fsLookup w.fs (p ++ ".key") = none)
    (hgen : w.genOk = true)
    (hwk : w.failPaths.contains (p ++ ".key") = false)
    (hwc : w.failPaths.contains (p ++ ".crt") = false) :
    (ensureCert cfg w p).result = none ∧
    fsLookup (ensureCert cfg w p).world.fs (p ++ ".key") =
      some ⟨.keyPem w.freshKeyId, 0o600⟩ ∧
    fsLookup (ensureCert cfg w p).world.fs (p ++ ".crt") =
      some ⟨.certPem [cfg.hostname, "localhost"] w.freshKeyId, 0o600⟩ ∧
    (∀ q, q ≠ p ++ ".key" → q ≠ p ++ ".crt" →
      fsLookup (ensureCert cfg w p).world.fs q = fsLookup w.fs q) ∧
    (ensureCert cfg w p).events =
      [.load (p ++ ".crt") (p ++ ".key") false,
       .generate [cfg.hostname, "localhost"],
       .write (p ++ ".key") true, .write (p ++ ".crt") true] := by
  have hL := loadX509_absent w.fs (p ++ ".crt") (p ++ ".key") hcrt
  rw [ensureCert_eq_generate cfg w p hins hcf hL hgen hwk hwc]
  refine ⟨rfl, ?_, ?_, ?_, rfl⟩
  · show fsLookup (fsWrite (fsWrite w.fs (p ++ ".key") _) (p ++ ".crt") _)
      (p ++ ".key") = _
    rw [fsLookup_fsWrite_ne _ _ _ _ (key_ne_crt p), fsLookup_fsWrite_self]
  · show fsLookup (fsWrite (fsWrite w.fs (p ++ ".key") _) (p ++ ".crt") _)
      (p ++ ".crt") = _
    rw [fsLookup_fsWrite_self]
  · intro q hqk hqc
    show fsLookup (fsWrite (fsWrite w.fs (p ++ ".key") _) (p ++ ".crt") _) q = _
    rw [fsLookup_fsWrite_ne _ _ _ _ hqc, fsLookup_fsWrite_ne _ _ _ _ hqk]

/-- Witness for C3 at an empty fault-free world. -/
theorem ensureCert_generates_self_signed_witness :
    cfgDefault.insecure = false ∧ cfgDefault.certFile = "" ∧
    fsLookup worldEmpty.fs ("d" ++ ".crt") = none ∧
    fsLookup worldEmpty.fs ("d" ++ ".key") = none ∧
    worldEmpty.genOk = true ∧
    worldEmpty.failPaths.contains ("d" ++ ".key") = false ∧
    worldEmpty.failPaths.contains ("d" ++ ".crt") = false ∧
    ((ensureCert cfgDefault worldEmpty "d").result = none ∧
     fsLookup (ensureCert cfgDefault worldEmpty "d").world.fs ("d" ++ ".key") =
       some ⟨.keyPem worldEmpty.freshKeyId, 0o600⟩ ∧
     fsLookup (ensureCert cfgDefault worldEmpty "d").world.fs ("d" ++ ".crt") =
       some ⟨.certPem [cfgDefault.hostname, "localhost"]
         worldEmpty.freshKeyId, 0o600⟩ ∧
     (∀ q, q ≠ "d" ++ ".key" → q ≠ "d" ++ ".crt" →
       fsLookup (ensureCert cfgDefault worldEmpty "d").world.fs q =
         fsLookup worldEmpty.fs q) ∧
     (ensureCert cfgDefault worldEmpty "d").events =
       [.load ("d" ++ ".crt") ("d" ++ ".key") false,
        .generate [cfgDefault.hostname, "localhost"],
        .write ("d" ++ ".key") true, .write ("d" ++ ".crt") true]) :=
  ⟨rfl, rfl, rfl, rfl, rfl, rfl, rfl,
   ensureCert_generates_self_signed cfgDefault worldEmpty "d"
     rfl rfl rfl rfl rfl rfl rfl⟩

/-- C6: fallback idempotence — with no pre-existing files at the
candidate paths, a first `EnsureCert` call succeeds and creates the
two files, and a second call with the same configuration succeeds by
loading the previously generated pair, performing no regeneration, no
write, and no modification of the filesystem. -/
theorem ensureCert_fallback_idempotent (cfg : HTTPConfig) (w : World)
    (p : String)
    (hins : cfg.insecure = false) (hcf : cfg.certFile = "")
    (hcrt : fsLookup w.fs (p ++ ".crt") = none)
    (hkey : fsLookup w.fs (p ++ ".key") = none)
    (hgen : w.genOk = true)
    (hwk : w.failPaths.contains (p ++ ".key") = false)
    (hwc : w.failPaths.contains (p ++ ".crt") = false) :
    (ensureCert cfg w p).result = none ∧
    fsLookup (ensureCert cfg w p).world.fs (p ++ ".key") =
      some ⟨.keyPem w.freshKeyId, 0o600⟩ ∧
    fsLookup (ensureCert cfg w p).world.fs (p ++ ".crt") =
      some ⟨.certPem [cfg.hostname, "localhost"] w.freshKeyId, 0o600⟩ ∧
    (ensureCert cfg (ensureCert cfg w p).world p).result = none ∧
    (ensureCert cfg (ensureCert cfg w p).world p).world =
      (ensureCert cfg w p).world ∧
    (ensureCert cfg (ensureCert cfg w p).world p).events =
      [.load (p ++ ".crt") (p ++ ".key") true] := by
  have hL := loadX509_absent w.fs (p ++ ".crt") (p ++ ".key") hcrt
  rw [ensureCert_eq_generate cfg w p hins hcf hL hgen hwk hwc]
  have hL2 : loadX509KeyPair
      ({ w with fs := fsWrite (fsWrite w.fs (p ++ ".key") ⟨.keyPem w.freshKeyId, 0o600⟩) (p ++ ".crt") ⟨.certPem [cfg.hostname, "localhost"] w.freshKeyId, 0o600⟩ } : World).fs
      (p ++ ".crt") (p ++ ".key") = .ok () :=
    loadX509_generated w.fs p [cfg.hostname, "localhost"] w.freshKeyId
  rw [ensureCert_eq_reuse cfg _ p hins hcf hL2]
  refine ⟨rfl, ?_, ?_, rfl, rfl, rfl⟩
  · show fsLookup (fsWrite (fsWrite w.fs (p ++ ".key") _) (p ++ ".crt") _)
      (p ++ ".key") = _
    rw [fsLookup_fsWrite_ne _ _ _ _ (key_ne_crt p), fsLookup_fsWrite_self]
  · show fsLookup (fsWrite (fsWrite w.fs (p ++ ".key") _) (p ++ ".crt") _)
      (p ++ ".crt") = _
    rw [fsLookup_fsWrite_self]

/-- Witness for C6 at an empty fault-free world. -/
theorem ensureCert_fallback_idempotent_witness :
    (ensureCert cfgDefault worldEmpty "d").result = none ∧
    fsLookup (ensureCert cfgDefault worldEmpty "d").world.fs ("d" ++ ".key") =
      some ⟨.keyPem worldEmpty.freshKeyId, 0o600⟩ ∧
    fsLookup (ensureCert cfgDefault worldEmpty "d").world.fs ("d" ++ ".crt") =
      some ⟨.certPem [cfgDefault.hostname, "localhost"]
        worldEmpty.freshKeyId, 0o600⟩ ∧
    (ensureCert cfgDefault (ensureCert cfgDefault worldEmpty "d").world "d").result
      = none ∧
    (ensureCert cfgDefault (ensureCert cfgDefault worldEmpty "d").world "d").world
      = (ensureCert cfgDefault worldEmpty "d").world ∧
    (ensureCert cfgDefault (ensureCert cfgDefault worldEmpty "d").world "d").events
      = [.load ("d" ++ ".crt") ("d" ++ ".key") true] :=
  ensureCert_fallback_idempotent cfgDefault worldEmpty "d"
    rfl rfl rfl rfl rfl rfl rfl

/-- C10 (implicit): in the generation branch the key file is written
before the certificate file; if the key write succeeds but the
certificate write fails, `EnsureCert` returns the wrapped
cert-write error while the already-written key file remains on disk
and the configuration's `certFile`/`keyFile` fields remain set to the
candidate paths — neither the filesystem nor the configuration is
rolled back. -/
theorem ensureCert_cert_write_failure (cfg : HTTPConfig) (w : World)
    (p : String)
    (hins : cfg.insecure = false) (hcf : cfg.certFile = "")
    (hcrt : fsLookup w.fs (p ++ ".crt") = none)
    (hgen : w.genOk = true)
    (hwk : w.failPaths.contains (p ++ ".key") = false)
    (hwc : w.failPaths.contains (p ++ ".crt") = true) :
    (ensureCert cfg w p).result =
      some (.wrapped "error writing cert PEM" (.writeFail (p ++ ".crt"))) ∧
    fsLookup (ensureCert cfg w p).world.fs (p ++ ".key") =
      some ⟨.keyPem w.freshKeyId, 0o600⟩ ∧
    (ensureCert cfg w p).config.certFile = p ++ ".crt" ∧
    (ensureCert cfg w p).config.keyFile = p ++ ".key" ∧
    (ensureCert cfg w p).events =
      [.load (p ++ ".crt") (p ++ ".key") false,
       .generate [cfg.hostname, "localhost"],
       .write (p ++ ".key") true, .write (p ++ ".crt") false] := by
  have hL := loadX509_absent w.fs (p ++ ".crt") (p ++ ".key") hcrt
  rw [ensureCert_eq_certWriteFail cfg w p hins hcf hL hgen hwk hwc]
  refine ⟨rfl, ?_, rfl, rfl, rfl⟩
  show fsLookup (fsWrite w.fs (p ++ ".key") _) (p ++ ".key") = _
  rw [fsLookup_fsWrite_self]

/-- Witness for C10 at an empty world whose certificate path is
write-faulted. -/
theorem ensureCert_cert_write_failure_witness :
    (ensureCert cfgDefault worldCertFail "d").result =
      some (.wrapped "error writing cert PEM" (.writeFail ("d" ++ ".crt"))) ∧
    fsLookup (ensureCert cfgDefault worldCertFail "d").world.fs ("d" ++ ".key") =
      some ⟨.keyPem worldCertFail.freshKeyId, 0o600⟩ ∧
    (ensureCert cfgDefault worldCertFail "d").config.certFile = "d" ++ ".crt" ∧
    (ensureCert cfgDefault worldCertFail "d").config.keyFile = "d" ++ ".key" ∧
    (ensureCert cfgDefault worldCertFail "d").events =
      [.load ("d" ++ ".crt") ("d" ++ ".key") false,
       .generate [cfgDefault.hostname, "localhost"],
       .write ("d" ++ ".key") true, .write ("d" ++ ".crt") false] :=
  ensureCert_cert_write_failure cfgDefault worldCertFail "d"
    rfl rfl rfl rfl (by decide) (by decide)

/-- C8 counterexample: the claim that every successful resolution
path, including fresh generation, ends with a load-and-parse
verification round-trip is false — on an empty filesystem the
generation path succeeds and its last effectful operation is the
certificate write, not a load. -/
theorem ensureCert_generation_skips_verify : ¬ ensureCertEndsWithVerifyLoad := by
  intro h
  obtain ⟨a, b, hab⟩ := h cfgDefault worldEmpty "d" rfl (by decide)
  have h3 : (ensureCert cfgDefault worldEmpty "d").events.getLast? =
      some (.write ("d" ++ ".crt") true) := by decide
  rw [h3] at hab
  simp at hab

/-- C8 (amended): whenever `EnsureCert` returns success in TLS mode,
the resolved (cert, key) pair is mutually consistent — loading and
parsing the pair at the resolved paths from the resulting filesystem
succeeds. On the two load paths this is the load round-trip itself;
the fresh-generation path returns without re-loading, and its pair is
consistent because the generator produces a matching pair. -/
theorem ensureCert_success_pair_consistent (cfg : HTTPConfig) (w : World)
    (p : String) (hins : cfg.insecure = false)
    (hok : (ensureCert cfg w p).result = none) :
    loadX509KeyPair (ensureCert cfg w p).world.fs
      (ensureCert cfg w p).config.certFile
      (ensureCert cfg w p).config.keyFile = .ok () := by
  by_cases hcf : cfg.certFile = ""
  · cases hL : loadX509KeyPair w.fs (p ++ ".crt") (p ++ ".key") with
    | ok u =>
        cases u
        rw [ensureCert_eq_reuse cfg w p hins hcf hL]
        exact hL
    | error e =>
        by_cases hne : e = .notExist
        · subst hne
          cases hgen : w.genOk with
          | false =>
              rw [ensureCert_eq_genFail cfg w p hins hcf hL hgen] at hok
              cases hok
          | true =>
              cases hwk : w.failPaths.contains (p ++ ".key") with
              | true =>
                  rw [ensureCert_eq_keyWriteFail cfg w p hins hcf hL hgen hwk]
                    at hok
                  cases hok
              | false =>
                  cases hwc : w.failPaths.contains (p ++ ".crt") with
                  | true =>
                      rw [ensureCert_eq_certWriteFail cfg w p hins hcf hL
                        hgen hwk hwc] at hok
                      cases hok
                  | false =>
                      rw [ensureCert_eq_generate cfg w p hins hcf hL
                        hgen hwk hwc]
                      exact loadX509_generated w.fs p
                        [cfg.hostname, "localhost"] w.freshKeyId
        · rw [ensureCert_eq_unrecognized cfg w p e hins hcf hL hne] at hok
          cases hok
  · cases hL : loadX509KeyPair w.fs cfg.certFile cfg.keyFile with
    | ok u =>
        cases u
        rw [ensureCert_eq_explicit_ok cfg w p hins hcf hL]
        exact hL
    | error e =>
        rw [ensureCert_eq_explicit_err cfg w p e hins hcf hL] at hok
        cases hok

/-- Witness for the amended C8 on the fresh-generation path. -/
theorem ensureCert_success_pair_consistent_witness :
    cfgDefault.insecure = false ∧
    (ensureCert cfgDefault worldEmpty "d").result = none ∧
    loadX509KeyPair (ensureCert cfgDefault worldEmpty "d").world.fs
      (ensureCert cfgDefault worldEmpty "d").config.certFile
      (ensureCert cfgDefault worldEmpty "d").config.keyFile = .ok () :=
  ⟨rfl, by decide,
   ensureCert_success_pair_consistent cfgDefault worldEmpty "d" rfl (by decide)⟩

/-- C9 counterexample: `EnsureCert` is not configuration-preserving —
in the fallback branch it overwrites the empty `certFile`/`keyFile`
fields with the derived candidate paths. -/
theorem ensureCert_mutates_config : ¬ ensureCertPreservesConfig :=
  fun h => absurd (h cfgDefault worldEmpty "d") (by decide)

/-- C9 (amended): `EnsureCert` never modifies `listen`, `hostname` or
`insecure`; it leaves the whole configuration unchanged when
`insecure` is true or `certFile` is set, and in the remaining case
(the fallback branch: `insecure` false, `certFile` empty) its only
modification is recording the derived candidate paths in
`certFile`/`keyFile`. -/
theorem ensureCert_config_frame (cfg : HTTPConfig) (w : World)
    (p : String) :
    (ensureCert cfg w p).config.listen = cfg.listen ∧
    (ensureCert cfg w p).config.hostname = cfg.hostname ∧
    (ensureCert cfg w p).config.insecure = cfg.insecure ∧
    (cfg.insecure = true → (ensureCert cfg w p).config = cfg) ∧
    (cfg.certFile ≠ "" → (ensureCert cfg w p).config = cfg) ∧
    (cfg.insecure = false → cfg.certFile = "" →
      (ensureCert cfg w p).config =
        { cfg with certFile := p ++ ".crt", keyFile := p ++ ".key" }) := by
  rw [ensureCert_config_eq cfg w p]
  by_cases hc : cfg.insecure = false ∧ cfg.certFile = ""
  · rw [if_pos hc]
    refine ⟨rfl, rfl, rfl, ?_, ?_, fun _ _ => rfl⟩
    · intro hins
      rw [hc.1] at hins
      cases hins
    · intro hcf
      exact absurd hc.2 hcf
  · rw [if_neg hc]
    refine ⟨rfl, rfl, rfl, fun _ => rfl, fun _ => rfl, ?_⟩
    intro hins hcf
    exact absurd ⟨hins, hcf⟩ hc

/-- Witness for the amended C9 in the fallback branch. -/
theorem ensureCert_config_frame_witness :
    (ensureCert cfgDefault worldEmpty "d").config.listen = cfgDefault.listen ∧
    (ensureCert cfgDefault worldEmpty "d").config.hostname =
      cfgDefault.hostname ∧
    (ensureCert cfgDefault worldEmpty "d").config.insecure =
      cfgDefault.insecure ∧
    (cfgDefault.insecure = true →
      (ensureCert cfgDefault worldEmpty "d").config = cfgDefault) ∧
    (cfgDefault.certFile ≠ "" →
      (ensureCert cfgDefault worldEmpty "d").config = cfgDefault) ∧
    (cfgDefault.insecure = false → cfgDefault.certFile = "" →
      (ensureCert cfgDefault worldEmpty "d").config =
        { cfgDefault with certFile := "d" ++ ".crt",
                          keyFile := "d" ++ ".key" }) :=
  ensureCert_config_frame cfgDefault worldEmpty "d"

/-- C7: in any reachable state of the handler-wrapper system, (a)
cancelling the global scope makes every request's derived context
done; (b) after request `i`'s own native context is cancelled (client
disconnect), one firing of its watcher leaves `i`'s derived context
done; (c) no step of request `i` (disconnect, watcher firing, handler
return) cancels the global scope or changes any sibling request `j`;
(d) once request `i`'s handler returns (running the deferred
`cancel`), the watcher's second `select` case is ready and firing it
tears the watcher down. -/
theorem requestContext_cancellation (s : SysState) (hs : Reachable s)
    (i j : Nat) (hi : i < s.reqs.length) (hj : j < s.reqs.length)
    (hij : j ≠ i) :
    (∀ k, derivedDone (step s .cancelScope)
      (reqAt (step s .cancelScope) k) = true) ∧
    derivedDone (run s [.clientDisconnect i, .watcherNative i])
      (reqAt (run s [.clientDisconnect i, .watcherNative i]) i) = true ∧
    (∀ st, (st = Step.clientDisconnect i ∨ st = Step.watcherNative i ∨
        st = Step.watcherDerived i ∨ st = Step.handlerReturn i) →
      (step s st).scopeDone = s.scopeDone ∧
      reqAt (step s st) j = reqAt s j) ∧
    (reqAt (step (step s (.handlerReturn i)) (.watcherDerived i)) i).watcherExited
      = true :=
  ⟨scopeCancel_cancels_all s,
   clientDisconnect_then_watcher_cancels s (watcherInv_reachable s hs) i hi,
   fun st hst => requestStep_frame s i j hij st hst,
   handlerReturn_then_watcher_exits s i hi⟩

/-- Witness for C7 at the initial state with two in-flight
requests. -/
theorem requestContext_cancellation_witness :
    Reachable (initState 2) ∧
    0 < (initState 2).reqs.length ∧ 1 < (initState 2).reqs.length ∧
    ((∀ k, derivedDone (step (initState 2) .cancelScope)
       (reqAt (step (initState 2) .cancelScope) k) = true) ∧
     derivedDone (run (initState 2) [.clientDisconnect 0, .watcherNative 0])
       (reqAt (run (initState 2) [.clientDisconnect 0, .watcherNative 0]) 0)
       = true ∧
     (∀ st, (st = Step.clientDisconnect 0 ∨ st = Step.watcherNative 0 ∨
         st = Step.watcherDerived 0 ∨ st = Step.handlerReturn 0) →
       (step (initState 2) st).scopeDone = (initState 2).scopeDone ∧
       reqAt (step (initState 2) st) 1 = reqAt (initState 2) 1) ∧
     (reqAt (step (step (initState 2) (.handlerReturn 0))
       (.watcherDerived 0)) 0).watcherExited = true) :=
  ⟨⟨2, [], rfl⟩, by decide, by decide,
   requestContext_cancellation (initState 2) ⟨2, [], rfl⟩ 0 1
     (by decide) (by decide) (by decide)⟩

end TeleportPlugins
